import Mathlib

/-!
Verification of the CHRONOS pipeline core against its specification.

The development shallow-embeds three parts of the repository:
  * the text-to-graph extractor
    (src/chronos/app/phase2_context_builder.py, _parse_graph_elements),
  * the rate-limiting / retry controller
    (src/chronos/app/gemini_rate_limiter.py),
  * the stage orchestrator
    (src/chronos/app/main.py together with phase3_distilling.run_phase3).

Python strings are embedded as `List Char`, Python floats as `ℚ`, regular
expressions as explicit backtracking matchers specialised to the two pattern
shapes the source uses, and the random jitter draw as an explicit parameter
constrained to the interval the source draws from.
-/

set_option maxRecDepth 8000

namespace Chronos

/-- The single-quote character, used pervasively by the source's regex literals. -/
def sq : String := String.mk [Char.ofNat 39]

/-! ### Generic text matching

`re.finditer` / `re.search` on the two fixed patterns of
`_parse_graph_elements` and the five patterns of `_extract_retry_delay` are
embedded by explicit matchers.  A lazy group `(.*?)` followed by a literal is
modelled by `lazySplits`, which returns every admissible (capture, rest) split
in the backtracking order of the regex engine (shortest capture first); `.`
does not match a newline, so a capture never contains one. -/

/-- Does `lit` occur verbatim at the head of `s`? -/
def litAt : List Char → List Char → Bool
  | [], _ => true
  | _ :: _, [] => false
  | c :: cs, d :: ds => c = d && litAt cs ds

/-- Drop a mandatory literal from the head of `s` (regex literal fragment). -/
def dropLit (lit s : List Char) : Option (List Char) :=
  if litAt lit s then some (s.drop lit.length) else none

/-- All splits of `s` as capture ++ lit ++ rest, shortest capture first, the
    capture containing no newline: the candidate list of a lazy group `(.*?)`
    followed by the literal `lit`. -/
def lazySplits (lit : List Char) : List Char → List (List Char × List Char)
  | [] => if litAt lit [] then [([], [])] else []
  | c :: rest =>
    (if litAt lit (c :: rest) then [([], (c :: rest).drop lit.length)] else [])
      ++ (if c = '\n' then []
          else (lazySplits lit rest).map (fun p => (c :: p.1, p.2)))

/-- First successful alternative: the backtracking search over a candidate
    list. -/
def firstSome (l : List α) (f : α → Option β) : Option β :=
  match l with
  | [] => none
  | a :: rest =>
    match f a with
    | some b => some b
    | none => firstSome rest f

/-! ### The graph extractor (`_parse_graph_elements`)

Source regexes:
  node_pattern = Node\(id='(.*?)', type='(.*?)'\)
  rel_pattern  = Relationship\(subj=Node\(id='(.*?)', type='(.*?)'\),
                 obj=Node\(id='(.*?)', type='(.*?)'\),
                 type='(.*?)'(?:, timestamp='(.*?)')?\)
-/

def nodeLit : List Char := ("Node(id=" ++ sq).toList
def sepIdType : List Char := (sq ++ ", type=" ++ sq).toList
def nodeClose : List Char := (sq ++ ")").toList
def relLit : List Char := ("Relationship(subj=Node(id=" ++ sq).toList
def sepSubjObj : List Char := (sq ++ "), obj=Node(id=" ++ sq).toList
def sepObjType : List Char := (sq ++ "), type=" ++ sq).toList
def quoteLit : List Char := sq.toList
def tsLit : List Char := (", timestamp=" ++ sq).toList
def quoteParen : List Char := (sq ++ ")").toList
def parenLit : List Char := ")".toList

/-- Match the node pattern at the current position; on success return the two
    captures and the remainder of the text after the match. -/
def matchNodeAt (s : List Char) : Option ((List Char × List Char) × List Char) :=
  match dropLit nodeLit s with
  | none => none
  | some s1 =>
    firstSome (lazySplits sepIdType s1) (fun g1 =>
      ((lazySplits nodeClose g1.2).head?).map (fun g2 => ((g1.1, g2.1), g2.2)))

/-- One match of the relationship pattern: the six capture groups (the
    timestamp group is optional). -/
structure RelMatch where
  subjId : List Char
  subjType : List Char
  objId : List Char
  objType : List Char
  relType : List Char
  timestamp : Option (List Char)
deriving DecidableEq, Repr

/-- Match the relationship pattern at the current position, with the regex
    engine's backtracking order: each lazy group is extended only when the
    remainder of the pattern fails, and the optional timestamp group is
    preferred present. -/
def matchRelAt (s : List Char) : Option (RelMatch × List Char) :=
  match dropLit relLit s with
  | none => none
  | some s1 =>
    firstSome (lazySplits sepIdType s1) (fun g1 =>
    firstSome (lazySplits sepSubjObj g1.2) (fun g2 =>
    firstSome (lazySplits sepIdType g2.2) (fun g3 =>
    firstSome (lazySplits sepObjType g3.2) (fun g4 =>
    firstSome (lazySplits quoteLit g4.2) (fun g5 =>
      match dropLit tsLit g5.2 with
      | some s6 =>
        match (lazySplits quoteParen s6).head? with
        | some g6 => some (⟨g1.1, g2.1, g3.1, g4.1, g5.1, some g6.1⟩, g6.2)
        | none =>
          (dropLit parenLit g5.2).map
            (fun s7 => (⟨g1.1, g2.1, g3.1, g4.1, g5.1, none⟩, s7))
      | none =>
        (dropLit parenLit g5.2).map
          (fun s7 => (⟨g1.1, g2.1, g3.1, g4.1, g5.1, none⟩, s7)))))))

/-- Embeds `re.finditer`: scan left to right, emit non-overlapping matches, continue
    after each match.  Both source patterns consume at least one character on
    every match, so fuel `s.length + 1` never runs out. -/
def findAllFuel (matchAt : List Char → Option (α × List Char)) :
    Nat → List Char → List α
  | 0, _ => []
  | fuel + 1, s =>
    match matchAt s with
    | some (a, rest) => a :: findAllFuel matchAt fuel rest
    | none =>
      match s with
      | [] => []
      | _ :: t => findAllFuel matchAt fuel t

/-- All node-pattern matches of `text`, in order of appearance. -/
def findNodes (text : List Char) : List (List Char × List Char) :=
  findAllFuel matchNodeAt (text.length + 1) text

/-- All relationship-pattern matches of `text`, in order of appearance. -/
def findRels (text : List Char) : List RelMatch :=
  findAllFuel matchRelAt (text.length + 1) text

/-- A `Node` record as built by `_parse_graph_elements`. -/
structure Node where
  id : List Char
  type : List Char
  properties : List (List Char × List Char)
deriving DecidableEq, Repr

/-- A `Relationship` record as built by `_parse_graph_elements`. -/
structure Relationship where
  subj : Node
  obj : Node
  type : List Char
  timestamp : Option (List Char)
  properties : List (List Char × List Char)
deriving DecidableEq, Repr

/-- The `GraphElement` record returned by `_parse_graph_elements`; `source` is the
    (possibly truncated) text of the source element. -/
structure GraphElement where
  nodes : List Node
  relationships : List Relationship
  source : List Char
deriving DecidableEq, Repr

/-- The constant `{'source': 'phase2_chronos'}` attached to every node and
    relationship. -/
def srcProps : List (List Char × List Char) :=
  [("source".toList, "phase2_chronos".toList)]

/-- Dict lookup by node id (node ids are unique in the built dict). -/
def lookupNode (ns : List Node) (nid : List Char) : Option Node :=
  ns.find? (fun n => decide (n.id = nid))

/-- Embeds `if node_id not in nodes: nodes[node_id] = Node(...)` — insert only when
    the id is absent; a Python dict preserves insertion order. -/
def insertNode (ns : List Node) (nid ntyp : List Char) : List Node :=
  match lookupNode ns nid with
  | some _ => ns
  | none => ns ++ [⟨nid, ntyp, srcProps⟩]

/-- The node dict built from the node matches, in insertion order. -/
def buildNodes (ms : List (List Char × List Char)) : List Node :=
  ms.foldl (fun ns m => insertNode ns m.1 m.2) []

/-- One iteration of the relationship loop: the match is kept only when both
    its subject and object ids resolve in the node dict. -/
def relStep (ns : List Node) (rs : List Relationship) (m : RelMatch) :
    List Relationship :=
  match lookupNode ns m.subjId, lookupNode ns m.objId with
  | some s, some o => rs ++ [⟨s, o, m.relType, m.timestamp, srcProps⟩]
  | _, _ => rs

/-- The relationship list built from the relationship matches. -/
def buildRels (ns : List Node) (ms : List RelMatch) : List Relationship :=
  ms.foldl (relStep ns) []

/-- The relationship produced from one match, if its endpoints resolve: the
    per-match view of `relStep`. -/
def relOf (ns : List Node) (m : RelMatch) : Option Relationship :=
  match lookupNode ns m.subjId, lookupNode ns m.objId with
  | some s, some o => some ⟨s, o, m.relType, m.timestamp, srcProps⟩
  | _, _ => none

/-- Embeds `_parse_graph_elements(llm_output, source_text)`: extract nodes, then
    relationships resolved against those nodes, and attach the (truncated)
    source text. -/
def parseGraphElements (llm_output source_text : List Char) : GraphElement :=
  let nodes := buildNodes (findNodes llm_output)
  let rels := buildRels nodes (findRels llm_output)
  ⟨nodes, rels, (if source_text = [] then llm_output else source_text).take 1000⟩

/-! ### The retry-delay extractor (`_extract_retry_delay`)

Source patterns (tried in order with `re.search(..., re.IGNORECASE)`):
  "retryDelay":\s*"(\d+)s"
  "retryDelay":\s*(\d+)
  retryAfter:\s*(\d+)
  Retry-After:\s*(\d+)
then the fallback  (\d+)\s*seconds?
The captured digits are converted with `float`, which is exact on the
integers involved, so the result is embedded as `ℕ`. -/

/-- Python's `\s` character class (ASCII range, which is all the error texts
    contain). -/
def isPySpace (c : Char) : Bool :=
  c = ' ' || c = '\t' || c = '\n' || c = '\r' || c = Char.ofNat 11 || c = Char.ofNat 12

/-- Case-insensitive literal at the head of `s` (re.IGNORECASE). -/
def litAtCI : List Char → List Char → Bool
  | [], _ => true
  | _ :: _, [] => false
  | c :: cs, d :: ds => c.toLower = d.toLower && litAtCI cs ds

/-- Drop a case-insensitive literal from the head of `s`. -/
def dropLitCI (lit s : List Char) : Option (List Char) :=
  if litAtCI lit s then some (s.drop lit.length) else none

/-- Greedy `(\d+)`: the maximal digit run at the head (empty when no digit). -/
def takeDigits (s : List Char) : List Char × List Char :=
  (s.takeWhile Char.isDigit, s.dropWhile Char.isDigit)

def digitsToNat (ds : List Char) : ℕ :=
  ds.foldl (fun acc c => 10 * acc + (c.toNat - 48)) 0

/-- Embeds `re.search`: try the position matcher at every position, leftmost match
    first.  Greedy `\d+` and `\s*` need no backtracking against the literals
    that follow them in these patterns, since a digit or space never begins
    those literals. -/
def searchMsg (matchAt : List Char → Option ℕ) : List Char → Option ℕ
  | [] => matchAt []
  | c :: rest =>
    match matchAt (c :: rest) with
    | some v => some v
    | none => searchMsg matchAt rest

/-- Digits followed by optional junk: shared tail of the four structured
    patterns — `\s*(\d+)` after a literal. -/
def digitsAfterSpaces (s : List Char) : Option ℕ :=
  let (ds, _) := takeDigits (s.dropWhile isPySpace)
  if ds = [] then none else some (digitsToNat ds)

/-- Pattern `"retryDelay":\s*"(\d+)s"` at the current position. -/
def quotedSecondsAt (s : List Char) : Option ℕ :=
  match dropLitCI ("\"retryDelay\":").toList s with
  | none => none
  | some s1 =>
    match dropLit ("\"").toList (s1.dropWhile isPySpace) with
    | none => none
    | some s2 =>
      let (ds, s3) := takeDigits s2
      if ds = [] then none
      else
        match dropLitCI ("s\"").toList s3 with
        | none => none
        | some _ => some (digitsToNat ds)

/-- Pattern `"retryDelay":\s*(\d+)` at the current position. -/
def bareRetryDelayAt (s : List Char) : Option ℕ :=
  match dropLitCI ("\"retryDelay\":").toList s with
  | none => none
  | some s1 => digitsAfterSpaces s1

/-- Pattern `retryAfter:\s*(\d+)` at the current position. -/
def retryAfterAt (s : List Char) : Option ℕ :=
  match dropLitCI ("retryAfter:").toList s with
  | none => none
  | some s1 => digitsAfterSpaces s1

/-- Pattern `Retry-After:\s*(\d+)` at the current position. -/
def retryAfterHdrAt (s : List Char) : Option ℕ :=
  match dropLitCI ("Retry-After:").toList s with
  | none => none
  | some s1 => digitsAfterSpaces s1

/-- Fallback pattern `(\d+)\s*seconds?` at the current position. -/
def fallbackSecondsAt (s : List Char) : Option ℕ :=
  let (ds, s1) := takeDigits s
  if ds = [] then none
  else
    match dropLitCI ("second").toList (s1.dropWhile isPySpace) with
    | none => none
    | some _ => some (digitsToNat ds)

/-- Embeds `_extract_retry_delay`: the four structured patterns in priority order,
    then the fallback; the first match wins. -/
def extractRetryDelay (msg : List Char) : Option ℕ :=
  match searchMsg quotedSecondsAt msg with
  | some v => some v
  | none =>
    match searchMsg bareRetryDelayAt msg with
    | some v => some v
    | none =>
      match searchMsg retryAfterAt msg with
      | some v => some v
      | none =>
        match searchMsg retryAfterHdrAt msg with
        | some v => some v
        | none => searchMsg fallbackSecondsAt msg

/-! ### The retry controller (`generate_content`) -/

/-- Substring test (`pat in s` in Python). -/
def hasSub (pat : List Char) : List Char → Bool
  | [] => litAt pat []
  | c :: t => litAt pat (c :: t) || hasSub pat t

def lowerStr (s : List Char) : List Char := s.map Char.toLower

/-- The rate-limit classification of an error message. -/
def isRateLimit (msg : List Char) : Bool :=
  hasSub ("429").toList msg ||
  hasSub ("RESOURCE_EXHAUSTED").toList msg ||
  hasSub ("quota").toList (lowerStr msg) ||
  hasSub ("rate limit").toList (lowerStr msg) ||
  hasSub ("too many requests").toList (lowerStr msg)

/-- The controller's configuration (delays in seconds, embedded as `ℚ`). -/
structure RLConfig where
  initial_delay : ℚ
  max_delay : ℚ
  base_delay : ℚ
  max_retries : ℕ
deriving DecidableEq

/-- Embeds `_calculate_delay`: exponential backoff with jitter; the jitter is the
    value drawn by `random.uniform(0.1, 0.9)`, passed in explicitly. -/
def calculateDelay (cfg : RLConfig) (attempt : ℕ) (jitter : ℚ) : ℚ :=
  min (cfg.initial_delay * 2 ^ attempt + jitter) cfg.max_delay

/-- Embeds `_handle_rate_limit_error`: the server-suggested delay when one was
    extracted and is truthy (non-zero), floored at `base_delay`; otherwise
    `base_delay`. -/
def handleRateLimitDelay (cfg : RLConfig) (msg : List Char) : ℚ :=
  match extractRetryDelay msg with
  | some d => if d = 0 then cfg.base_delay else max (d : ℚ) cfg.base_delay
  | none => cfg.base_delay

/-- The message of the `ValueError` raised on an empty or invalid response. -/
def emptyRespMsg : List Char :=
  ("Empty or invalid response from Gemini API").toList

/-- One attempt of `requestFn` inside the `try` block: a response without a
    textual payload becomes a failure with `emptyRespMsg`. -/
def attemptOutcome (r : Except (List Char) (List Char)) :
    Except (List Char) (List Char) :=
  match r with
  | .ok t => if t = [] then .error emptyRespMsg else .ok t
  | .error m => .error m

/-- The `time.sleep` calls issued by the `except` block of attempt `a` when
    it failed with `msg`: a rate-limit failure always sleeps its computed
    delay; another failure sleeps the backoff only when not on the last
    attempt. -/
def attemptSleeps (cfg : RLConfig) (jit : ℕ → ℚ) (a : ℕ) (msg : List Char) :
    List ℚ :=
  if isRateLimit msg then [handleRateLimitDelay cfg msg]
  else if a < cfg.max_retries then [calculateDelay cfg a (jit a)] else []

/-- What a whole `generate_content` call did: its outcome, the backoff sleeps
    it issued in order, and how many attempts ran.  (The pacing sleeps of
    `_enforce_request_delay` are wall-clock dependent and only add to the
    total sleep time; they are not part of this trace.) -/
structure RunResult where
  result : Except (List Char) (List Char)
  sleeps : List ℚ
  attempts : ℕ

/-- The `for attempt in range(max_attempts + 1)` loop of `generate_content`,
    over the remaining attempt indices.  On failure the `except` block sleeps,
    then re-raises if this was the last attempt. -/
def runAttempts (cfg : RLConfig) (beh : ℕ → Except (List Char) (List Char))
    (jit : ℕ → ℚ) : List ℕ → List ℚ → ℕ → RunResult
  | [], acc, n => ⟨.error ("Maximum retry attempts exceeded").toList, acc, n⟩
  | a :: rest, acc, n =>
    match attemptOutcome (beh a) with
    | .ok t => ⟨.ok t, acc, n + 1⟩
    | .error msg =>
      let acc' := acc ++ attemptSleeps cfg jit a msg
      if a = cfg.max_retries then ⟨.error msg, acc', n + 1⟩
      else runAttempts cfg beh jit rest acc' (n + 1)

/-- Embeds `generate_content` without a `max_attempts` override: `max_retries + 1`
    attempt indices `0 .. max_retries`. -/
def generateContent (cfg : RLConfig) (beh : ℕ → Except (List Char) (List Char))
    (jit : ℕ → ℚ) : RunResult :=
  runAttempts cfg beh jit (List.range (cfg.max_retries + 1)) [] 0

/-! ### The module-level limiter (`get_rate_limiter`, `rate_limited_request`) -/

/-- A keyword-argument dictionary passed to `get_rate_limiter`: each field is
    an override of the corresponding default setting. -/
structure Kwargs where
  initial_delay : Option ℚ
  max_delay : Option ℚ
  base_delay : Option ℚ
  max_retries : Option ℕ
  total_timeout : Option ℚ
deriving DecidableEq

/-- Python truthiness of the kwargs dict. -/
def Kwargs.nonempty (k : Kwargs) : Bool :=
  k.initial_delay.isSome || k.max_delay.isSome || k.base_delay.isSome ||
  k.max_retries.isSome || k.total_timeout.isSome

/-- A `GeminiRateLimiter` instance: its configuration plus the mutable pacing
    state (`request_count`, `last_request_time`). -/
structure Limiter where
  initial_delay : ℚ
  max_delay : ℚ
  base_delay : ℚ
  max_retries : ℕ
  total_timeout : ℚ
  request_count : ℕ
  last_request_time : ℚ
deriving DecidableEq

/-- Embeds `GeminiRateLimiter(**default_settings)` after
    `default_settings.update(kwargs)`: defaults 2/300/12/5/1800 overridden by
    the kwargs, counters initialised to zero. -/
def newLimiter (k : Kwargs) : Limiter :=
  ⟨k.initial_delay.getD 2, k.max_delay.getD 300, k.base_delay.getD 12,
   k.max_retries.getD 5, k.total_timeout.getD 1800, 0, 0⟩

/-- Embeds `get_rate_limiter(**kwargs)` acting on the module global `_rate_limiter`:
    returns the limiter to use and the new global.  A fresh instance is
    installed when the global is `None` or any kwarg was passed. -/
def getRateLimiter (k : Kwargs) (g : Option Limiter) : Limiter × Option Limiter :=
  match g with
  | none => (newLimiter k, some (newLimiter k))
  | some l =>
    if k.nonempty then (newLimiter k, some (newLimiter k)) else (l, some l)

/-- The kwargs that `rate_limited_request` always passes:
    `base_delay=delay_between_requests` and nothing else. -/
def onlyBaseDelay (d : ℚ) : Kwargs := ⟨none, none, some d, none, none⟩

/-- The limiter obtained (and the global installed) by
    `rate_limited_request(model, prompt, delay_between_requests=d)` before it
    delegates to `generate_content`. -/
def rateLimitedRequestLimiter (g : Option Limiter) (d : ℚ) :
    Limiter × Option Limiter :=
  getRateLimiter (onlyBaseDelay d) g

/-- The sleep performed by `_enforce_request_delay` at wall-clock time `now`:
    positive only when less than `base_delay` elapsed since
    `last_request_time`. -/
def enforceWait (l : Limiter) (now : ℚ) : ℚ :=
  if now - l.last_request_time < l.base_delay
  then l.base_delay - (now - l.last_request_time) else 0

/-! ### The orchestrator (`main` and `Phase3Distiller.run_phase3`)

Stage behaviours are embedded as `Except` values: `.ok a` for an executor
that returns artifact `a`, `.error e` for one that raises. -/

def exceptToOption : Except (List Char) (List Char) → Option (List Char)
  | .ok a => some a
  | .error _ => none

/-- The `results` dict of `run_phase3`. -/
structure Phase3Results where
  lens_a : Option (List Char)
  lens_b : Option (List Char)
  lens_c : Option (List Char)
  synthesis : Option (List Char)
deriving DecidableEq

/-- Embeds `run_phase3`: each lens is tried independently with its failure caught;
    synthesis is attempted only when all three lens results are truthy, and
    its own failure is caught too. -/
def runPhase3 (la lb lc : Except (List Char) (List Char))
    (syn : List Char → List Char → List Char → Except (List Char) (List Char)) :
    Phase3Results :=
  let ra := exceptToOption la
  let rb := exceptToOption lb
  let rc := exceptToOption lc
  let rs :=
    match ra, rb, rc with
    | some a, some b, some c => exceptToOption (syn a b c)
    | _, _, _ => none
  ⟨ra, rb, rc, rs⟩

/-- The per-stage artifacts recorded by one run of `main`. -/
structure PipelineRecord where
  phase1 : Option (List Char)
  phase2Summary : Option (List Char)
  phase3 : Option Phase3Results
  phase4 : Option (List Char)
deriving DecidableEq

/-- The stage sequencing of `main`: a Phase 1 failure returns at once; a
    Phase 2 failure (or missing summary) skips Phase 3 and hence Phase 4;
    Phase 4 runs only when `phase3_results['synthesis']` is truthy. -/
def runPipeline (p1 : Except (List Char) (List Char))
    (p2 : Except (List Char) (Option (List Char)))
    (la lb lc : Except (List Char) (List Char))
    (syn : List Char → List Char → List Char → Except (List Char) (List Char))
    (p4 : List Char → Except (List Char) (List Char)) : PipelineRecord :=
  match p1 with
  | .error _ => ⟨none, none, none, none⟩
  | .ok b1 =>
    let s2 : Option (List Char) :=
      match p2 with
      | .ok s => s
      | .error _ => none
    match s2 with
    | none => ⟨some b1, none, none, none⟩
    | some s =>
      let r3 := runPhase3 la lb lc syn
      let r4 :=
        match r3.synthesis with
        | some sy => exceptToOption (p4 sy)
        | none => none
      ⟨some b1, some s, some r3, r4⟩

inductive RunStatus where
  | finishedAll
  | partlyComplete
  | failed
deriving DecidableEq

/-- Modelled from the spec: `main.py` keeps no explicit run-status value, so
    the Done / PartiallyComplete / Failed classification of §4.3 and §7 is
    taken from the spec's words — Failed when Stage 1 aborted the run, Done
    when no stage was skipped, PartiallyComplete otherwise. -/
def runStatus (r : PipelineRecord) : RunStatus :=
  if r.phase1.isNone then .failed
  else if r.phase2Summary.isSome
      && (match r.phase3 with
          | some p3 => p3.synthesis.isSome
          | none => false)
      && r.phase4.isSome then .finishedAll
  else .partlyComplete

/-! ### Concrete inputs used by the counterexamples and witnesses -/

/-- The spec's end-to-end example text: two node declarations and one
    relationship declaration. -/
def exampleText : List Char :=
  ("Node(id=" ++ sq ++ "blood_congestion" ++ sq ++ ", type=" ++ sq ++
   "ClinicalObservation" ++ sq ++ ")\nNode(id=" ++ sq ++ "paralysis" ++ sq ++
   ", type=" ++ sq ++ "ClinicalObservation" ++ sq ++
   ")\nRelationship(subj=Node(id=" ++ sq ++ "blood_congestion" ++ sq ++
   ", type=" ++ sq ++ "ClinicalObservation" ++ sq ++ "), obj=Node(id=" ++ sq ++
   "paralysis" ++ sq ++ ", type=" ++ sq ++ "ClinicalObservation" ++ sq ++
   "), type=" ++ sq ++ "results_in" ++ sq ++ ")").toList

/-- The node the example's relationship starts from. -/
def bloodNode : Node :=
  ⟨("blood_congestion").toList, ("ClinicalObservation").toList, srcProps⟩

/-- The node the example's relationship points to. -/
def paralysisNode : Node :=
  ⟨("paralysis").toList, ("ClinicalObservation").toList, srcProps⟩

/-- The relationship extracted from `exampleText`. -/
def exampleRel : Relationship :=
  ⟨bloodNode, paralysisNode, ("results_in").toList, none, srcProps⟩

/-- A text consisting of a single relationship declaration whose ids appear in
    no separate node declaration. -/
def relOnlyText : List Char :=
  ("Relationship(subj=Node(id=" ++ sq ++ "z" ++ sq ++ ", type=" ++ sq ++
   "X" ++ sq ++ "), obj=Node(id=" ++ sq ++ "a" ++ sq ++ ", type=" ++ sq ++
   "X" ++ sq ++ "), type=" ++ sq ++ "rel" ++ sq ++ ")").toList

/-- A text in which the node scan's first match (an unterminated type capture)
    swallows the `Node(id='z'...)` embedded in the relationship declaration,
    so the id `z` is absent from the node set and the relationship is
    dropped. -/
def swallowText : List Char :=
  ("Node(id=" ++ sq ++ "q" ++ sq ++ ", type=" ++ sq ++
   "ab Relationship(subj=Node(id=" ++ sq ++ "z" ++ sq ++ ", type=" ++ sq ++
   "X" ++ sq ++ "), obj=Node(id=" ++ sq ++ "a2" ++ sq ++ ", type=" ++ sq ++
   "Y" ++ sq ++ "), type=" ++ sq ++ "r" ++ sq ++ ")").toList

/-- A text declaring the id `a` twice with different types. -/
def dupNodeText : List Char :=
  ("Node(id=" ++ sq ++ "a" ++ sq ++ ", type=" ++ sq ++ "X" ++ sq ++
   ")\nNode(id=" ++ sq ++ "a" ++ sq ++ ", type=" ++ sq ++ "Y" ++ sq ++
   ")").toList

/-- An error text carrying a JSON `retryDelay` field of 30 seconds. -/
def msg30 : List Char :=
  ("429 RESOURCE_EXHAUSTED \"retryDelay\": \"30s\"").toList

/-- An error text carrying both a JSON `retryDelay` field and a bare
    "45 seconds" phrase. -/
def msgBoth : List Char :=
  ("429 quota exceeded \"retryDelay\": \"30s\" please retry in 45 seconds").toList

/-- A configuration whose only allowed attempt is the last one. -/
def cfgLastAttempt : RLConfig := ⟨2, 300, 12, 0⟩

/-- The default configuration with `maxRetries = 2`, as in the spec's
    three-attempt scenario. -/
def cfgThreeAttempts : RLConfig := ⟨2, 300, 12, 2⟩

/-- A configuration with one retry, used with a non-rate-limit failure. -/
def cfgOneRetry : RLConfig := ⟨2, 300, 12, 1⟩

/-- A request that always fails with a rate-limit-classified error carrying
    no suggested delay. -/
def behAlways429 : ℕ → Except (List Char) (List Char) :=
  fun _ => .error (("429 too many requests").toList)

/-- A request that always fails with an error classified as other-transient. -/
def behBoom : ℕ → Except (List Char) (List Char) :=
  fun _ => .error (("boom").toList)

/-- A limiter with accumulated pacing state, standing for the global limiter
    left behind by earlier calls. -/
def staleLimiter : Limiter := ⟨2, 300, 12, 5, 1800, 7, 1000⟩

/-! ## Helper lemmas about the extractor -/

theorem lookupNode_mem {ns : List Node} {nid : List Char} {n : Node}
    (h : lookupNode ns nid = some n) : n ∈ ns :=
  List.mem_of_find?_eq_some h

theorem lookupNode_id {ns : List Node} {nid : List Char} {n : Node}
    (h : lookupNode ns nid = some n) : n.id = nid := by
  have := List.find?_some h
  simpa using this

/-- Every relationship accumulated by the relationship loop has both endpoints
    in the node dict the loop resolves against. -/
theorem foldl_relStep_endpoints (ns : List Node) :
    ∀ (ms : List RelMatch) (acc : List Relationship),
      (∀ r ∈ acc, r.subj ∈ ns ∧ r.obj ∈ ns) →
      ∀ r ∈ ms.foldl (relStep ns) acc, r.subj ∈ ns ∧ r.obj ∈ ns := by
  intro ms
  induction ms with
  | nil => intro acc hacc r hr; exact hacc r hr
  | cons m ms ih =>
    intro acc hacc r hr
    refine ih _ ?_ r hr
    intro r' hr'
    cases hs : lookupNode ns m.subjId with
    | none =>
      simp only [relStep, hs] at hr'
      exact hacc r' hr'
    | some s =>
      cases ho : lookupNode ns m.objId with
      | none =>
        simp only [relStep, hs, ho] at hr'
        exact hacc r' hr'
      | some o =>
        simp only [relStep, hs, ho, List.mem_append, List.mem_singleton] at hr'
        rcases hr' with hr' | hr'
        · exact hacc r' hr'
        · subst hr'
          exact ⟨lookupNode_mem hs, lookupNode_mem ho⟩

/-- The relationship loop is an order-preserving filter-map of the match
    list. -/
theorem foldl_relStep_filterMap (ns : List Node) :
    ∀ (ms : List RelMatch) (acc : List Relationship),
      ms.foldl (relStep ns) acc = acc ++ ms.filterMap (relOf ns) := by
  intro ms
  induction ms with
  | nil => intro acc; simp
  | cons m ms ih =>
    intro acc
    rw [List.foldl_cons, ih, List.filterMap_cons]
    cases hs : lookupNode ns m.subjId with
    | none => simp [relStep, relOf, hs]
    | some s =>
      cases ho : lookupNode ns m.objId with
      | none => simp [relStep, relOf, hs, ho]
      | some o => simp [relStep, relOf, hs, ho]

theorem parse_nodes_eq (text src : List Char) :
    (parseGraphElements text src).nodes = buildNodes (findNodes text) := rfl

theorem parse_rels_eq (text src : List Char) :
    (parseGraphElements text src).relationships =
      buildRels (buildNodes (findNodes text)) (findRels text) := rfl

theorem lookup_insertNode (ns : List Node) (nid ntyp a : List Char) :
    lookupNode (insertNode ns nid ntyp) a =
      match lookupNode ns a with
      | some n => some n
      | none => if nid = a then some ⟨nid, ntyp, srcProps⟩ else none := by
  unfold insertNode
  cases hnid : lookupNode ns nid with
  | some n0 =>
    cases ha : lookupNode ns a with
    | some n => rfl
    | none =>
      have hne : nid ≠ a := by
        intro h
        rw [h, ha] at hnid
        exact Option.noConfusion hnid
      simp [hne]
  | none =>
    unfold lookupNode
    rw [List.find?_append]
    cases ha : lookupNode ns a with
    | some n =>
      unfold lookupNode at ha
      simp [ha, Option.orElse]
    | none =>
      unfold lookupNode at ha
      simp only [ha, Option.orElse, Option.none_orElse]
      by_cases h : nid = a
      · simp [List.find?, h]
      · simp [List.find?, h]

/-- Looking an id up in the node dict yields the first node-scan match with
    that id. -/
theorem lookup_buildNodes_aux :
    ∀ (ms : List (List Char × List Char)) (acc : List Node) (a : List Char),
      lookupNode (ms.foldl (fun ns m => insertNode ns m.1 m.2) acc) a =
        match lookupNode acc a with
        | some n => some n
        | none =>
          (ms.find? (fun m => decide (m.1 = a))).map
            (fun m => (⟨m.1, m.2, srcProps⟩ : Node)) := by
  intro ms
  induction ms with
  | nil =>
    intro acc a
    cases h : lookupNode acc a <;> simp [h]
  | cons m ms ih =>
    intro acc a
    rw [List.foldl_cons, ih, lookup_insertNode]
    cases ha : lookupNode acc a with
    | some n => rfl
    | none =>
      by_cases h : m.1 = a
      · simp [List.find?, h]
      · simp [List.find?, h]

theorem lookup_buildNodes (ms : List (List Char × List Char)) (a : List Char) :
    lookupNode (buildNodes ms) a =
      (ms.find? (fun m => decide (m.1 = a))).map
        (fun m => (⟨m.1, m.2, srcProps⟩ : Node)) := by
  rw [buildNodes, lookup_buildNodes_aux]
  rfl

/-- The node dict never holds two nodes with the same id. -/
theorem buildNodes_pairwise_ids :
    ∀ (ms : List (List Char × List Char)) (acc : List Node),
      acc.Pairwise (fun x y => x.id ≠ y.id) →
      (ms.foldl (fun ns m => insertNode ns m.1 m.2) acc).Pairwise
        (fun x y => x.id ≠ y.id) := by
  intro ms
  induction ms with
  | nil => intro acc h; exact h
  | cons m ms ih =>
    intro acc h
    rw [List.foldl_cons]
    refine ih _ ?_
    unfold insertNode
    cases hm : lookupNode acc m.1 with
    | some n => exact h
    | none =>
      rw [List.pairwise_append]
      refine ⟨h, List.pairwise_singleton _ _, ?_⟩
      intro x hx y hy
      simp only [List.mem_singleton] at hy
      subst hy
      have := List.find?_eq_none.mp hm x hx
      simpa using this

theorem parse_pairwise_ids (text src : List Char) :
    (parseGraphElements text src).nodes.Pairwise (fun x y => x.id ≠ y.id) :=
  buildNodes_pairwise_ids (findNodes text) [] List.Pairwise.nil

/-- With pairwise-distinct ids, at most one node passes the id filter. -/
theorem length_filter_id_le_one {l : List Node}
    (h : l.Pairwise (fun x y => x.id ≠ y.id)) (a : List Char) :
    (l.filter (fun n => decide (n.id = a))).length ≤ 1 := by
  induction l with
  | nil => simp
  | cons x xs ih =>
    rw [List.pairwise_cons] at h
    by_cases hx : x.id = a
    · have hnil : xs.filter (fun n => decide (n.id = a)) = [] := by
        rw [List.filter_eq_nil_iff]
        intro n hn
        simp only [decide_eq_true_eq]
        intro h'
        exact (h.1 n hn) (by rw [hx, h'])
      simp [List.filter_cons, hx, hnil]
    · simp only [List.filter_cons, hx, decide_eq_true_eq, if_neg]
      simpa using ih h.2

/-! ## Claim C6 -/

/-- C6: every relationship in the GraphElement returned by the extractor has
    its subject and object among that same GraphElement's nodes; the
    invariant is established by the construction of the output (the
    relationship loop only keeps a match whose two ids resolve in the node
    dict and stores the resolved nodes themselves). -/
theorem relationship_endpoints_in_node_set (text src : List Char) :
    ∀ r ∈ (parseGraphElements text src).relationships,
      r.subj ∈ (parseGraphElements text src).nodes ∧
      r.obj ∈ (parseGraphElements text src).nodes := by
  intro r hr
  rw [parse_rels_eq] at hr
  rw [parse_nodes_eq]
  exact foldl_relStep_endpoints (buildNodes (findNodes text)) (findRels text) []
    (by simp) r hr

/-- Witness for C6 on the spec's end-to-end example text. -/
theorem relationship_endpoints_in_node_set_witness :
    exampleRel.subj ∈ (parseGraphElements exampleText []).nodes ∧
    exampleRel.obj ∈ (parseGraphElements exampleText []).nodes :=
  relationship_endpoints_in_node_set exampleText [] exampleRel (by decide)

/-! ## Claim C1 -/

/-- C1 counterexample: `relOnlyText` is a single Relationship declaration
    referencing the id `z`, which appears in no separate Node declaration;
    yet the output contains a node with id `z` (the node pattern also matches
    the `Node(...)` text embedded in the relationship declaration) and the
    relationship involving `z` is present, contradicting the claim that it
    would be dropped. -/
theorem embedded_node_defeats_dangling_claim :
    (parseGraphElements relOnlyText []).nodes.map (fun n => n.id) =
      [("z").toList, ("a").toList] ∧
    (parseGraphElements relOnlyText []).relationships.map
      (fun r => (r.subj.id, r.obj.id)) = [(("z").toList, ("a").toList)] :=
  ⟨by decide, by decide⟩

/-- C1 amended: a relationship declaration whose subject or object id does
    not resolve against the node set built from the same call is dropped
    without error — so when no node of the output carries an id `z`, no
    relationship in the output involves `z`.  (An id appearing only inside a
    relationship declaration is normally still matched by the node scan, so
    the hypothesis speaks of the built node set, not of separate Node
    declarations.) -/
theorem unresolved_id_gives_no_relationship (text src z : List Char)
    (hz : ∀ n ∈ (parseGraphElements text src).nodes, n.id ≠ z) :
    ∀ r ∈ (parseGraphElements text src).relationships,
      r.subj.id ≠ z ∧ r.obj.id ≠ z := by
  intro r hr
  rw [parse_rels_eq] at hr
  have h := foldl_relStep_endpoints (buildNodes (findNodes text)) (findRels text)
    [] (by simp) r hr
  rw [parse_nodes_eq] at hz
  exact ⟨hz _ h.1, hz _ h.2⟩

/-- Witness for the amended C1: in `exampleText` no node has id `z`, so the
    extracted relationship does not involve `z`. -/
theorem unresolved_id_gives_no_relationship_witness :
    exampleRel.subj.id ≠ ("z").toList ∧ exampleRel.obj.id ≠ ("z").toList :=
  unresolved_id_gives_no_relationship exampleText [] (("z").toList)
    (by decide) exampleRel (by decide)

/-- The dropping behaviour really occurs: in `swallowText` the node scan
    misses the embedded `Node(id='z'...)`, so the relationship referencing
    `z` is dropped from the output without error. -/
theorem swallowed_id_drops_relationship :
    (parseGraphElements swallowText []).nodes.map (fun n => n.id) =
      [("q").toList, ("a2").toList] ∧
    (findRels swallowText).map (fun m => m.subjId) = [("z").toList] ∧
    (parseGraphElements swallowText []).relationships = [] :=
  ⟨by decide, by decide, by decide⟩

/-! ## Claim C5 -/

/-- C5: when a text declares an id `a` more than once, the output contains
    exactly one node with id `a`, and its type is the one of the first
    declaration; later declarations are ignored and cause no error. -/
theorem duplicate_node_first_wins (text src a : List Char)
    (h : 2 ≤ (findNodes text).countP (fun m => decide (m.1 = a))) :
    ((parseGraphElements text src).nodes.filter
        (fun n => decide (n.id = a))).length = 1 ∧
    ∀ n ∈ (parseGraphElements text src).nodes, n.id = a →
      some n.type =
        ((findNodes text).find? (fun m => decide (m.1 = a))).map
          (fun m => m.2) := by
  have hpos : 0 < (findNodes text).countP (fun m => decide (m.1 = a)) := by omega
  rw [List.countP_pos_iff] at hpos
  obtain ⟨m0, hm0, hm0a⟩ := hpos
  obtain ⟨mf, hf⟩ : ∃ mf, (findNodes text).find? (fun m => decide (m.1 = a)) =
      some mf := by
    cases hfc : (findNodes text).find? (fun m => decide (m.1 = a)) with
    | some mf => exact ⟨mf, rfl⟩
    | none => exact absurd hm0a (List.find?_eq_none.mp hfc m0 hm0)
  have hmfa : mf.1 = a := by simpa using List.find?_some hf
  have hlook : lookupNode (parseGraphElements text src).nodes a =
      some ⟨mf.1, mf.2, srcProps⟩ := by
    rw [parse_nodes_eq, lookup_buildNodes, hf]
    rfl
  have hmem : (⟨mf.1, mf.2, srcProps⟩ : Node) ∈
      (parseGraphElements text src).nodes := lookupNode_mem hlook
  have hmemf : (⟨mf.1, mf.2, srcProps⟩ : Node) ∈
      (parseGraphElements text src).nodes.filter (fun n => decide (n.id = a)) := by
    rw [List.mem_filter]
    exact ⟨hmem, by simpa using hmfa⟩
  have hlen : ((parseGraphElements text src).nodes.filter
      (fun n => decide (n.id = a))).length = 1 := by
    have hle := length_filter_id_le_one (parse_pairwise_ids text src) a
    have hge := List.length_pos_of_mem hmemf
    omega
  refine ⟨hlen, ?_⟩
  intro n hn hna
  have hnf : n ∈ (parseGraphElements text src).nodes.filter
      (fun n => decide (n.id = a)) := by
    rw [List.mem_filter]
    exact ⟨hn, by simpa using hna⟩
  obtain ⟨x, hx⟩ := List.length_eq_one.mp hlen
  rw [hx, List.mem_singleton] at hnf hmemf
  rw [hf]
  have : n = (⟨mf.1, mf.2, srcProps⟩ : Node) := by rw [hnf, hmemf]
  rw [this]
  rfl

/-- Witness for C5: `dupNodeText` declares id `a` twice, with types `X` then
    `Y`; the output keeps one node with the first type. -/
theorem duplicate_node_first_wins_witness :
    ((parseGraphElements dupNodeText []).nodes.filter
        (fun n => decide (n.id = ("a").toList))).length = 1 ∧
    some (("X").toList) =
      ((findNodes dupNodeText).find?
          (fun m => decide (m.1 = ("a").toList))).map (fun m => m.2) :=
  ⟨(duplicate_node_first_wins dupNodeText [] (("a").toList) (by decide)).1,
   (duplicate_node_first_wins dupNodeText [] (("a").toList) (by decide)).2
     ⟨("a").toList, ("X").toList, srcProps⟩ (by decide) (by decide)⟩

/-! ## Claim C9 -/

/-- C9: the extractor is a pure function — two calls on identical input are
    definitionally the same value, so node sets and relationship sequences
    compare equal — and its relationship sequence is the order-preserving
    filter-map of the relationship matches in their order of appearance in
    the text. -/
theorem extractor_deterministic_and_ordered (text src : List Char) :
    parseGraphElements text src = parseGraphElements text src ∧
    (parseGraphElements text src).relationships =
      (findRels text).filterMap (relOf (buildNodes (findNodes text))) := by
  refine ⟨rfl, ?_⟩
  rw [parse_rels_eq, buildRels, foldl_relStep_filterMap]
  rfl

/-! ## Helper lemmas about the retry controller -/

theorem base_le_handleRateLimitDelay (cfg : RLConfig) (msg : List Char) :
    cfg.base_delay ≤ handleRateLimitDelay cfg msg := by
  unfold handleRateLimitDelay
  cases extractRetryDelay msg with
  | none => exact le_refl _
  | some d =>
    by_cases hd : d = 0
    · simp [hd]
    · simp [hd, le_max_right]

theorem runAttempts_cons_error (cfg : RLConfig)
    (beh : ℕ → Except (List Char) (List Char)) (jit : ℕ → ℚ) (a : ℕ)
    (rest : List ℕ) (acc : List ℚ) (n : ℕ) (msg : List Char)
    (h : attemptOutcome (beh a) = .error msg) :
    runAttempts cfg beh jit (a :: rest) acc n =
      if a = cfg.max_retries
      then ⟨.error msg, acc ++ attemptSleeps cfg jit a msg, n + 1⟩
      else runAttempts cfg beh jit rest
        (acc ++ attemptSleeps cfg jit a msg) (n + 1) := by
  have hstep : runAttempts cfg beh jit (a :: rest) acc n =
      match attemptOutcome (beh a) with
      | .ok t => ⟨.ok t, acc, n + 1⟩
      | .error msg =>
        if a = cfg.max_retries
        then ⟨.error msg, acc ++ attemptSleeps cfg jit a msg, n + 1⟩
        else runAttempts cfg beh jit rest
          (acc ++ attemptSleeps cfg jit a msg) (n + 1) := rfl
  rw [hstep, h]

/-- When every attempt fails, the loop over the remaining attempt indices
    raises the final failure, after issuing each attempt's sleeps in order. -/
theorem runAttempts_allFail (cfg : RLConfig)
    (beh : ℕ → Except (List Char) (List Char)) (jit : ℕ → ℚ)
    (msgs : ℕ → List Char)
    (hb : ∀ i, attemptOutcome (beh i) = .error (msgs i)) :
    ∀ (n k : ℕ) (acc : List ℚ) (cnt : ℕ),
      k + n = cfg.max_retries + 1 → 0 < n →
      runAttempts cfg beh jit (List.range' k n) acc cnt =
        ⟨.error (msgs cfg.max_retries),
         acc ++ (List.range' k n).flatMap
           (fun a => attemptSleeps cfg jit a (msgs a)),
         cnt + n⟩ := by
  intro n
  induction n with
  | zero => intro k acc cnt hk h0; exact absurd h0 (by omega)
  | succ m ih =>
    intro k acc cnt hk _
    have hrange : List.range' k (m + 1) = k :: List.range' (k + 1) m := rfl
    rw [hrange, runAttempts_cons_error cfg beh jit k _ acc cnt (msgs k) (hb k)]
    by_cases hkr : k = cfg.max_retries
    · have hm0 : m = 0 := by omega
      subst hm0
      rw [if_pos hkr, hkr]
      simp [List.flatMap_cons]
    · rw [if_neg hkr]
      have hm : 0 < m := by omega
      rw [ih (k + 1) _ _ (by omega) hm]
      simp only [List.flatMap_cons, List.append_assoc, RunResult.mk.injEq]
      exact ⟨trivial, trivial, by omega⟩

/-- Behaviour of `generate_content` when every attempt fails: the last message is raised,
    the sleeps are the per-attempt sleeps in order, and all
    `max_retries + 1` attempts ran. -/
theorem generateContent_allFail (cfg : RLConfig)
    (beh : ℕ → Except (List Char) (List Char)) (jit : ℕ → ℚ)
    (msgs : ℕ → List Char)
    (hb : ∀ i, attemptOutcome (beh i) = .error (msgs i)) :
    generateContent cfg beh jit =
      ⟨.error (msgs cfg.max_retries),
       (List.range (cfg.max_retries + 1)).flatMap
         (fun a => attemptSleeps cfg jit a (msgs a)),
       cfg.max_retries + 1⟩ := by
  unfold generateContent
  rw [List.range_eq_range']
  simpa using
    runAttempts_allFail cfg beh jit msgs hb (cfg.max_retries + 1) 0 [] 0
      (by omega) (by omega)

/-! ## Claim C4 -/

/-- C4: with every attempt failing, the controller performs exactly
    `maxRetries + 1` attempts and re-raises the last failure unchanged; and
    when `maxRetries = 2` and every failure is rate-limit-classified, the
    backoff sleeps alone total at least `2 * baseDelay` (the pacing sleeps
    only add to this). -/
theorem retry_exhaustion_reraises (cfg : RLConfig)
    (beh : ℕ → Except (List Char) (List Char)) (jit : ℕ → ℚ)
    (msgs : ℕ → List Char)
    (hb : ∀ i, attemptOutcome (beh i) = .error (msgs i)) :
    (generateContent cfg beh jit).attempts = cfg.max_retries + 1 ∧
    (generateContent cfg beh jit).result = .error (msgs cfg.max_retries) ∧
    (cfg.max_retries = 2 → 0 ≤ cfg.base_delay →
      (∀ i, isRateLimit (msgs i) = true) →
      2 * cfg.base_delay ≤ (generateContent cfg beh jit).sleeps.sum) := by
  rw [generateContent_allFail cfg beh jit msgs hb]
  refine ⟨rfl, rfl, ?_⟩
  intro h2 hb0 hrl
  rw [h2]
  have hr3 : List.range (2 + 1) = [0, 1, 2] := rfl
  rw [hr3]
  simp only [List.flatMap_cons, List.flatMap_nil, List.append_nil,
    List.sum_append, attemptSleeps, hrl 0, hrl 1, hrl 2, if_true,
    List.sum_cons, List.sum_nil]
  have h0 := base_le_handleRateLimitDelay cfg (msgs 0)
  have h1 := base_le_handleRateLimitDelay cfg (msgs 1)
  have hh2 := base_le_handleRateLimitDelay cfg (msgs 2)
  linarith

/-- Witness for C4 at `maxRetries = 2` and a constant rate-limit failure. -/
theorem retry_exhaustion_reraises_witness :
    (generateContent cfgThreeAttempts behAlways429 (fun _ => 0)).attempts = 3 ∧
    (generateContent cfgThreeAttempts behAlways429 (fun _ => 0)).result =
      .error (("429 too many requests").toList) ∧
    2 * (12 : ℚ) ≤
      (generateContent cfgThreeAttempts behAlways429 (fun _ => 0)).sleeps.sum :=
  ⟨(retry_exhaustion_reraises cfgThreeAttempts behAlways429 (fun _ => 0)
      (fun _ => ("429 too many requests").toList) (fun _ => rfl)).1,
   (retry_exhaustion_reraises cfgThreeAttempts behAlways429 (fun _ => 0)
      (fun _ => ("429 too many requests").toList) (fun _ => rfl)).2.1,
   (retry_exhaustion_reraises cfgThreeAttempts behAlways429 (fun _ => 0)
      (fun _ => ("429 too many requests").toList) (fun _ => rfl)).2.2 rfl
     (by norm_num [cfgThreeAttempts]) (fun _ => rfl)⟩

/-! ## Claim C2 -/

/-- C2 counterexample: with `maxRetries = 0` the single attempt is the last
    allowed one, yet a rate-limit failure still sleeps the computed wait
    (here `baseDelay = 12`) before the failure is re-raised — the claim that
    no backoff sleep happens on the last attempt is false for the rate-limit
    class. -/
theorem rate_limit_sleeps_on_final_attempt :
    (generateContent cfgLastAttempt behAlways429 (fun _ => 0)).sleeps =
      [(12 : ℚ)] ∧
    (generateContent cfgLastAttempt behAlways429 (fun _ => 0)).result =
      .error (("429 too many requests").toList) ∧
    (generateContent cfgLastAttempt behAlways429 (fun _ => 0)).attempts = 1 :=
  ⟨by decide, rfl, by decide⟩

/-- C2 amended: on the last allowed attempt the computed backoff wait is
    skipped only for the other-transient class; a rate-limit failure sleeps
    its computed wait even on the final attempt, before the failure is
    re-raised. -/
theorem final_attempt_sleep_iff_rate_limit (cfg : RLConfig)
    (beh : ℕ → Except (List Char) (List Char)) (jit : ℕ → ℚ)
    (msgs : ℕ → List Char)
    (hb : ∀ i, attemptOutcome (beh i) = .error (msgs i)) :
    (generateContent cfg beh jit).sleeps =
      ((List.range cfg.max_retries).flatMap
        (fun a => attemptSleeps cfg jit a (msgs a)))
        ++ (if isRateLimit (msgs cfg.max_retries)
            then [handleRateLimitDelay cfg (msgs cfg.max_retries)] else []) := by
  rw [generateContent_allFail cfg beh jit msgs hb]
  rw [List.range_succ, List.flatMap_append]
  simp [attemptSleeps]

/-- Witness for the amended C2: an other-transient failure on the final
    allowed attempt contributes no sleep. -/
theorem final_attempt_sleep_iff_rate_limit_witness :
    (generateContent cfgOneRetry behBoom (fun _ => 0)).sleeps =
      ((List.range cfgOneRetry.max_retries).flatMap
        (fun a => attemptSleeps cfgOneRetry (fun _ => 0) a (("boom").toList)))
        ++ (if isRateLimit (("boom").toList)
            then [handleRateLimitDelay cfgOneRetry (("boom").toList)]
            else []) :=
  final_attempt_sleep_iff_rate_limit cfgOneRetry behBoom (fun _ => 0)
    (fun _ => ("boom").toList) (fun _ => rfl)

/-! ## Claim C3 -/

/-- C3 counterexample: with `initialDelay = 10` at attempt 0, the draw `1/2`
    is admissible for the code's jitter (`uniform(0.1, 0.9)`), but the wait
    it produces sits below `initialDelay * 2^attempt + 0.1 * initialDelay`,
    so the jitter cannot lie in the claimed interval
    `[0.1 * initialDelay, 0.9 * initialDelay]`. -/
theorem jitter_interval_claim_false :
    ((1 / 10 : ℚ) ≤ 1 / 2 ∧ (1 / 2 : ℚ) ≤ 9 / 10) ∧
    calculateDelay ⟨10, 300, 12, 5⟩ 0 (1 / 2) - 10 * 2 ^ (0 : ℕ) <
      (1 / 10) * 10 := by
  refine ⟨⟨by norm_num, by norm_num⟩, ?_⟩
  norm_num [calculateDelay, min_def]

/-- C3 amended: for a jitter `j` in the interval `[0.1, 0.9]` the code
    actually draws from (absolute seconds, not scaled by `initialDelay`), the
    other-transient wait is `min(initialDelay * 2^attempt + j, maxDelay)`;
    the pre-jitter term is monotone in the attempt index and the wait never
    exceeds `maxDelay`. -/
theorem backoff_formula_with_absolute_jitter (initial maxd based : ℚ)
    (mr : ℕ) (a : ℕ) (j : ℚ)
    (hj1 : 1 / 10 ≤ j) (hj2 : j ≤ 9 / 10) (h0 : 0 ≤ initial) :
    calculateDelay ⟨initial, maxd, based, mr⟩ a j =
      min (initial * 2 ^ a + j) maxd ∧
    initial * 2 ^ a ≤ initial * 2 ^ (a + 1) ∧
    calculateDelay ⟨initial, maxd, based, mr⟩ a j ≤ maxd := by
  refine ⟨rfl, ?_, min_le_right _ _⟩
  have h2 : (2 : ℚ) ^ a ≤ 2 ^ (a + 1) :=
    pow_le_pow_right₀ (by norm_num) (Nat.le_succ a)
  exact mul_le_mul_of_nonneg_left h2 h0

/-- Witness for the amended C3 at the default configuration, attempt 1,
    jitter 1/2. -/
theorem backoff_formula_with_absolute_jitter_witness :
    calculateDelay ⟨2, 300, 12, 5⟩ 1 (1 / 2) =
      min ((2 : ℚ) * 2 ^ (1 : ℕ) + 1 / 2) 300 ∧
    (2 : ℚ) * 2 ^ (1 : ℕ) ≤ 2 * 2 ^ (1 + 1 : ℕ) ∧
    calculateDelay ⟨2, 300, 12, 5⟩ 1 (1 / 2) ≤ 300 :=
  backoff_formula_with_absolute_jitter 2 300 12 5 1 (1 / 2) (by norm_num)
    (by norm_num) (by norm_num)

/-! ## Claim C7 -/

/-- C7: the suggested-delay extractor scans its patterns in priority order
    and the first match wins: a JSON `"retryDelay": "30s"` field yields
    exactly 30, and when the text also contains a bare "45 seconds" phrase —
    which the last-resort pattern alone would read as 45 — the JSON field
    still wins. -/
theorem retry_delay_pattern_priority :
    extractRetryDelay msg30 = some 30 ∧
    extractRetryDelay msgBoth = some 30 ∧
    searchMsg fallbackSecondsAt msgBoth = some 45 :=
  ⟨by decide, by decide, by decide⟩

/-! ## Claim C10 -/

/-- C10: `rate_limited_request` always passes `base_delay`, so
    `get_rate_limiter` discards whatever global limiter existed and installs
    a freshly constructed one with `request_count = 0` and
    `last_request_time = 0`; consequently, once at least `base_delay` of
    wall-clock time has passed since the epoch, `_enforce_request_delay` on
    the fresh limiter never sleeps — the accumulated pacing state is reset on
    every call and no minimum spacing is enforced between consecutive
    `rate_limited_request` invocations. -/
theorem rate_limited_request_resets_pacing_state (g : Option Limiter)
    (d now : ℚ) (h : d ≤ now) :
    (rateLimitedRequestLimiter g d).1 = newLimiter (onlyBaseDelay d) ∧
    (rateLimitedRequestLimiter g d).1.request_count = 0 ∧
    (rateLimitedRequestLimiter g d).1.last_request_time = 0 ∧
    (rateLimitedRequestLimiter g d).1.base_delay = d ∧
    (rateLimitedRequestLimiter g d).2 = some (newLimiter (onlyBaseDelay d)) ∧
    enforceWait (rateLimitedRequestLimiter g d).1 now = 0 := by
  have hfresh : rateLimitedRequestLimiter g d =
      (newLimiter (onlyBaseDelay d), some (newLimiter (onlyBaseDelay d))) := by
    cases g with
    | none => rfl
    | some l => rfl
  rw [hfresh]
  refine ⟨rfl, rfl, rfl, rfl, rfl, ?_⟩
  have hlast : (newLimiter (onlyBaseDelay d)).last_request_time = 0 := rfl
  have hbase : (newLimiter (onlyBaseDelay d)).base_delay = d := rfl
  rw [enforceWait, hlast, hbase, if_neg]
  intro hlt
  rw [sub_zero] at hlt
  exact absurd h (not_le.mpr hlt)

/-- Witness for C10: a stale global limiter with accumulated state is
    replaced and no pacing sleep happens. -/
theorem rate_limited_request_resets_pacing_state_witness :
    (rateLimitedRequestLimiter (some staleLimiter) 12).1 =
      newLimiter (onlyBaseDelay 12) ∧
    (rateLimitedRequestLimiter (some staleLimiter) 12).1.request_count = 0 ∧
    (rateLimitedRequestLimiter (some staleLimiter) 12).1.last_request_time = 0 ∧
    (rateLimitedRequestLimiter (some staleLimiter) 12).1.base_delay = 12 ∧
    (rateLimitedRequestLimiter (some staleLimiter) 12).2 =
      some (newLimiter (onlyBaseDelay 12)) ∧
    enforceWait (rateLimitedRequestLimiter (some staleLimiter) 12).1 2000 = 0 :=
  rate_limited_request_resets_pacing_state (some staleLimiter) 12 2000
    (by norm_num)

/-! ## Claim C8 -/

/-- C8: when LensA and LensB succeed but LensC raises, Synthesis is skipped
    (its slot stays null for every possible synthesis behaviour), Stage 3's
    synthesis artifact is null, Stage 4 is skipped, and the run ends
    PartiallyComplete rather than Failed. -/
theorem lens_c_failure_gives_partial_run (b1 s la lb e : List Char)
    (syn : List Char → List Char → List Char → Except (List Char) (List Char))
    (p4 : List Char → Except (List Char) (List Char)) :
    runPipeline (.ok b1) (.ok (some s)) (.ok la) (.ok lb) (.error e) syn p4 =
      ⟨some b1, some s, some ⟨some la, some lb, none, none⟩, none⟩ ∧
    runStatus (runPipeline (.ok b1) (.ok (some s)) (.ok la) (.ok lb)
        (.error e) syn p4) = .partlyComplete ∧
    runStatus (runPipeline (.ok b1) (.ok (some s)) (.ok la) (.ok lb)
        (.error e) syn p4) ≠ .failed :=
  ⟨rfl, rfl, fun h => RunStatus.noConfusion h⟩

/-- Witness for C8 at concrete stage artifacts. -/
theorem lens_c_failure_gives_partial_run_witness :
    runPipeline (.ok (("b1").toList)) (.ok (some (("s2").toList)))
        (.ok (("la").toList)) (.ok (("lb").toList)) (.error (("lensC").toList))
        (fun _ _ _ => .ok (("syn").toList)) (fun _ => .ok (("p4").toList)) =
      ⟨some (("b1").toList), some (("s2").toList),
       some ⟨some (("la").toList), some (("lb").toList), none, none⟩, none⟩ ∧
    runStatus (runPipeline (.ok (("b1").toList)) (.ok (some (("s2").toList)))
        (.ok (("la").toList)) (.ok (("lb").toList)) (.error (("lensC").toList))
        (fun _ _ _ => .ok (("syn").toList)) (fun _ => .ok (("p4").toList))) =
      .partlyComplete :=
  ⟨(lens_c_failure_gives_partial_run (("b1").toList) (("s2").toList)
      (("la").toList) (("lb").toList) (("lensC").toList)
      (fun _ _ _ => .ok (("syn").toList)) (fun _ => .ok (("p4").toList))).1,
   (lens_c_failure_gives_partial_run (("b1").toList) (("s2").toList)
      (("la").toList) (("lb").toList) (("lensC").toList)
      (fun _ _ _ => .ok (("syn").toList)) (fun _ => .ok (("p4").toList))).2.1⟩

end Chronos
